import Mathlib

/-!
Verification of the currency conversion utility (`currency_conversion.py`).

The program keeps an in-memory table of exchange rates pivoted on USD, a
last-update timestamp, and a cache file.  On construction it loads the cache
if it is fresh (strictly less than one whole elapsed day old), otherwise it
tries a live fetch, and falls back to a hardcoded default table when the
fetch fails.  Conversion divides by the source rate and multiplies by the
target rate, rounding to two decimals.

Embedding choices:
* amounts and rates are rationals (`ℚ`); Python `round(x, 2)` (round half to
  even) is embedded as `round2`;
* timestamps are seconds (`Int`); `timedelta.days` is floor division by
  86400, embedded with `Int.fdiv`;
* the rate table is an association list `List (String × ℚ)` (Python dict
  with unique keys), `.upper()` is `upper` below;
* the filesystem and the network are an explicit `World`: the parsed content
  of the cache file (or `malformed` when `json.load`/`strptime` would raise)
  and the outcome of the provider calls made by `fetch_latest_rates`.
-/

namespace CurrencyConversion

/-- Python `str.upper()` restricted to the `Char.toUpper` mapping. -/
def upper (s : String) : String := String.mk (s.data.map Char.toUpper)

/-- Round a rational to the nearest integer, ties to even: the semantics of
Python builtin `round` on an exact value. -/
def roundHalfEven (x : ℚ) : ℤ :=
  let n := ⌊x⌋
  if x - n < 1/2 then n
  else if (1:ℚ)/2 < x - n then n + 1
  else if n % 2 = 0 then n else n + 1

/-- Python `round(x, 2)`. -/
def round2 (x : ℚ) : ℚ := (roundHalfEven (100 * x) : ℚ) / 100

/-- The rate table: Python dict from currency code to rate. -/
abbrev RateTable := List (String × ℚ)

/-- The mutable fields of the `CurrencyConverter` object that the claims are
about: `self.exchange_rates`, `self.last_update` (parsed to seconds; `None`
right after construction), `self.supported_currencies`. -/
structure ConvState where
  exchange_rates : RateTable
  last_update : Option Int
  supported_currencies : List String
deriving DecidableEq

/-- Parsed content of the cache file: either a record with `rates` and a
well-formed `last_update` timestamp, or anything on which `json.load`,
`strptime`, or the key lookups would raise. -/
inductive CacheFileContents
  | valid (rates : RateTable) (lastUpdate : Int)
  | malformed
deriving DecidableEq

/-- Outcome of the two provider calls performed by `fetch_latest_rates`:
both succeed with `result == 'success'` (`success`); both requests succeed
but the rates response has `result != 'success'` (`notSuccess`); the first
request raises `RequestException` (`requestErrorEarly`); the second raises
after the supported-codes list was already stored (`requestErrorLate`). -/
inductive FetchOutcome
  | success (codes : List String) (rates : RateTable)
  | notSuccess (codes : List String)
  | requestErrorEarly
  | requestErrorLate (codes : List String)
deriving DecidableEq

/-- The external world an operation runs against: the cache file (`none`
when `os.path.exists` is false), the current clock reading in seconds, and
the provider's behaviour. -/
structure World where
  cacheFile : Option CacheFileContents
  now : Int
  fetch : FetchOutcome
deriving DecidableEq

/-- `save_to_cache`: writes `{"rates": ..., "last_update": ...}`.  When
`last_update` is still `None` the written JSON has `null` there, which a
later `strptime` cannot parse, so the written file reads back malformed. -/
def save_to_cache (s : ConvState) : Option CacheFileContents :=
  match s.last_update with
  | some t => some (CacheFileContents.valid s.exchange_rates t)
  | none => some CacheFileContents.malformed

/-- Result of `fetch_latest_rates`: the returned boolean, the updated object
state, and the cache file after the call. -/
structure FetchResult where
  ok : Bool
  state : ConvState
  cacheFile : Option CacheFileContents
deriving DecidableEq

/-- `fetch_latest_rates`: fetches the supported codes, then the latest
USD-pivoted rates; on `result == 'success'` replaces the table and the
timestamp, saves to cache and returns `True`; returns `False` on a
non-success status; catches `RequestException` and returns `False`. -/
def fetch_latest_rates (w : World) (s : ConvState) : FetchResult :=
  match w.fetch with
  | FetchOutcome.success codes rates =>
    let s2 : ConvState :=
      { s with supported_currencies := codes
               exchange_rates := rates
               last_update := some w.now }
    { ok := true, state := s2, cacheFile := save_to_cache s2 }
  | FetchOutcome.notSuccess codes =>
    { ok := false
      state := { s with supported_currencies := codes }
      cacheFile := w.cacheFile }
  | FetchOutcome.requestErrorEarly =>
    { ok := false, state := s, cacheFile := w.cacheFile }
  | FetchOutcome.requestErrorLate codes =>
    { ok := false
      state := { s with supported_currencies := codes }
      cacheFile := w.cacheFile }

/-- The hardcoded default table of `use_default_rates`. -/
def default_rates : RateTable :=
  [("USD", 1), ("EUR", 93/100), ("IDR", 15600),
   ("SGD", 135/100), ("MYR", 473/100), ("JPY", 15027/100)]

/-- `use_default_rates`: installs the default table, stamps the current
time. -/
def use_default_rates (now : Int) (s : ConvState) : ConvState :=
  { s with exchange_rates := default_rates, last_update := some now }

/-- Result of `load_or_update_rates`: the object state, the cache file, and
whether `fetch_latest_rates` was invoked. -/
structure InitResult where
  state : ConvState
  cacheFile : Option CacheFileContents
  fetchInvoked : Bool
deriving DecidableEq

/-- `load_or_update_rates` (the body of initialization): read the cache
file; when it parses and `(datetime.now() - cache_time).days < 1` adopt it;
otherwise call `fetch_latest_rates`, and on failure (which the source turns
into a raised exception) fall back to `use_default_rates`.  A malformed
cache file raises inside the `try`, jumping straight to the `except` branch
and thus to the default table without any fetch. -/
def load_or_update_rates (w : World) (s : ConvState) : InitResult :=
  match w.cacheFile with
  | some (CacheFileContents.valid rates t) =>
    if (w.now - t).fdiv 86400 < 1 then
      { state := { s with exchange_rates := rates, last_update := some t }
        cacheFile := w.cacheFile
        fetchInvoked := false }
    else
      let r := fetch_latest_rates w s
      if r.ok then
        { state := r.state, cacheFile := r.cacheFile, fetchInvoked := true }
      else
        { state := use_default_rates w.now r.state
          cacheFile := r.cacheFile
          fetchInvoked := true }
  | some CacheFileContents.malformed =>
    { state := use_default_rates w.now s
      cacheFile := w.cacheFile
      fetchInvoked := false }
  | none =>
    let r := fetch_latest_rates w s
    if r.ok then
      { state := r.state, cacheFile := r.cacheFile, fetchInvoked := true }
    else
      { state := use_default_rates w.now r.state
        cacheFile := r.cacheFile
        fetchInvoked := true }

/-- The object state right after `__init__` sets its fields, before
`load_or_update_rates` runs. -/
def initState : ConvState :=
  { exchange_rates := [], last_update := none, supported_currencies := [] }

/-- The only error `convert` raises on in-range rates. -/
inductive ConvertError
  | unsupportedCurrency
deriving DecidableEq

/-- `convert`: uppercase both codes, reject when either is absent from the
table, otherwise divide by the source rate, multiply by the target rate and
round to two decimals. -/
def convert (rates : RateTable) (amount : ℚ)
    (from_currency to_currency : String) : Except ConvertError ℚ :=
  let fc := upper from_currency
  let tc := upper to_currency
  match rates.lookup fc, rates.lookup tc with
  | some rFrom, some rTo => Except.ok (round2 (amount / rFrom * rTo))
  | _, _ => Except.error ConvertError.unsupportedCurrency

/-- `convert` as an operation on the object: the method only reads
`self.exchange_rates` and assigns no field. -/
def convert_op (s : ConvState) (amount : ℚ) (fc tc : String) :
    Except ConvertError ℚ × ConvState :=
  (convert s.exchange_rates amount fc tc, s)

/-- `update_from_api` (the manual refresh menu action): calls
`fetch_latest_rates` and only prints a message depending on the boolean. -/
def update_from_api (w : World) (s : ConvState) :
    ConvState × Option CacheFileContents :=
  let r := fetch_latest_rates w s
  (r.state, r.cacheFile)

/-! ## Helper lemmas -/

theorem roundHalfEven_of_lt {x : ℚ} {n : ℤ} (hn : ⌊x⌋ = n) (h : x - n < 1/2) :
    roundHalfEven x = n := by
  simp only [roundHalfEven, hn]
  rw [if_pos h]

theorem roundHalfEven_of_gt {x : ℚ} {n : ℤ} (hn : ⌊x⌋ = n)
    (h : (1:ℚ)/2 < x - n) : roundHalfEven x = n + 1 := by
  simp only [roundHalfEven, hn]
  rw [if_neg (by linarith), if_pos h]

theorem round2_of_lt {x : ℚ} {n : ℤ} (hn : ⌊100 * x⌋ = n)
    (h : 100 * x - n < 1/2) : round2 x = (n : ℚ) / 100 := by
  rw [round2, roundHalfEven_of_lt hn h]

theorem round2_of_gt {x : ℚ} {n : ℤ} (hn : ⌊100 * x⌋ = n)
    (h : (1:ℚ)/2 < 100 * x - n) : round2 x = ((n : ℚ) + 1) / 100 := by
  rw [round2, roundHalfEven_of_gt hn h]
  push_cast
  ring

theorem lookup_mem {l : RateTable} {k : String} {v : ℚ}
    (h : l.lookup k = some v) : (k, v) ∈ l := by
  obtain ⟨l₁, l₂, rfl, -⟩ := List.lookup_eq_some_iff.mp h
  simp

theorem fdiv_day_eq_zero {d : Int} (h0 : 0 ≤ d) (h1 : d < 86400) :
    d.fdiv 86400 < 1 := by
  rw [Int.fdiv_eq_ediv _ (by norm_num)]
  omega

theorem one_le_fdiv_day {d : Int} (h : 86400 ≤ d) : ¬(d.fdiv 86400 < 1) := by
  rw [Int.fdiv_eq_ediv _ (by norm_num)]
  omega

/-! ## Claims about `convert` -/

/-- C1: when both uppercased codes are keys of the table, `convert` returns
`amount / rate[upper from] * rate[upper to]` rounded to 2 decimals with
round-half-to-even semantics. -/
theorem convert_pivot_formula (rates : RateTable) (amount : ℚ)
    (fc tc : String) (rFrom rTo : ℚ)
    (hf : rates.lookup (upper fc) = some rFrom)
    (ht : rates.lookup (upper tc) = some rTo) :
    convert rates amount fc tc = Except.ok (round2 (amount / rFrom * rTo)) := by
  simp only [convert]
  rw [hf, ht]

/-- C1 witness: the spec example `convert(50, "EUR", "SGD")` on the default
table returns `round(50 / 0.93 * 1.35, 2) = 72.58`. -/
theorem convert_pivot_formula_witness :
    convert default_rates 50 "EUR" "SGD" = Except.ok (7258/100) := by
  have h := convert_pivot_formula default_rates 50 "EUR" "SGD" (93/100)
    (135/100) rfl rfl
  rw [h]
  have e1 : (50:ℚ) / (93/100) * (135/100) = 6750/93 := by norm_num
  rw [e1, round2_of_lt (n := 7258)]
  · norm_num
  · rw [Int.floor_eq_iff]
    constructor <;> push_cast <;> norm_num
  · push_cast
    norm_num

/-- C2: `convert` fails, with the unsupported-currency error, exactly when
one of the uppercased codes is absent from the table; the result only
depends on the uppercased spelling of the codes; the object state is left
unchanged. -/
theorem convert_unsupported_iff (s : ConvState) (amount : ℚ)
    (fc tc : String) :
    ((convert_op s amount fc tc).1
        = Except.error ConvertError.unsupportedCurrency ↔
      s.exchange_rates.lookup (upper fc) = none ∨
      s.exchange_rates.lookup (upper tc) = none) ∧
    (∀ fc2 tc2, upper fc2 = upper fc → upper tc2 = upper tc →
      convert_op s amount fc2 tc2 = convert_op s amount fc tc) ∧
    (convert_op s amount fc tc).2 = s := by
  refine ⟨?_, ?_, rfl⟩
  · unfold convert_op convert
    cases hf : s.exchange_rates.lookup (upper fc) <;>
      cases ht : s.exchange_rates.lookup (upper tc) <;>
      simp [hf, ht]
  · intro fc2 tc2 h1 h2
    unfold convert_op convert
    rw [h1, h2]

/-- C2 witness: on the default table, a code absent from the table makes
`convert` fail with the unsupported-currency error, and the state is kept. -/
theorem convert_unsupported_iff_witness :
    (convert_op ⟨default_rates, none, []⟩ 5 "usd" "xyz").1
        = Except.error ConvertError.unsupportedCurrency ∧
    (convert_op ⟨default_rates, none, []⟩ 5 "usd" "xyz").2
        = ⟨default_rates, none, []⟩ := by
  have h := convert_unsupported_iff ⟨default_rates, none, []⟩ 5 "usd" "xyz"
  exact ⟨h.1.mpr (Or.inr rfl), h.2.2⟩

/-- C6: converting a supported positive-rate currency to itself returns the
amount rounded to 2 decimals. -/
theorem convert_self (rates : RateTable) (amount : ℚ) (c : String) (r : ℚ)
    (hc : rates.lookup (upper c) = some r) (hr : 0 < r) :
    convert rates amount c c = Except.ok (round2 amount) := by
  simp only [convert]
  rw [hc]
  have e : amount / r * r = amount := by
    field_simp
  show Except.ok (round2 (amount / r * r)) = Except.ok (round2 amount)
  rw [e]

/-- C6 witness: `convert(100, "idr", "idr")` on the default table is
`round(100, 2) = 100.00`. -/
theorem convert_self_witness :
    convert default_rates 100 "idr" "idr" = Except.ok (10000/100) := by
  have h := convert_self default_rates 100 "idr" 15600 rfl (by norm_num)
  rw [h, round2_of_lt (n := 10000)]
  · norm_num
  · rw [Int.floor_eq_iff]
    constructor <;> push_cast <;> norm_num
  · push_cast
    norm_num

/-- C7: with the pivot entry USD present at rate 1, converting from USD
multiplies by the target rate and converting to USD divides by the source
rate, each rounded to 2 decimals. -/
theorem convert_usd_pivot (rates : RateTable) (amount : ℚ) (x : String)
    (r : ℚ) (hu : rates.lookup "USD" = some 1)
    (hx : rates.lookup (upper x) = some r) (_hr : 0 < r) :
    convert rates amount "USD" x = Except.ok (round2 (amount * r)) ∧
    convert rates amount x "USD" = Except.ok (round2 (amount / r)) := by
  have hU : upper "USD" = "USD" := rfl
  constructor
  · simp only [convert]
    rw [hU, hu, hx]
    norm_num
  · simp only [convert]
    rw [hU, hu, hx]
    norm_num

/-- C7 witness: on the default table, the spec example
`convert(100, "usd", "idr") = 15600.00`, and
`convert(15600, "idr", "usd") = 100.00`. -/
theorem convert_usd_pivot_witness :
    convert default_rates 100 "USD" "idr" = Except.ok (156000000/100) ∧
    convert default_rates 15600 "idr" "USD" = Except.ok (100/100) := by
  have h := convert_usd_pivot default_rates 100 "idr" 15600 rfl rfl
    (by norm_num)
  have h2 := convert_usd_pivot default_rates 15600 "idr" 15600 rfl rfl
    (by norm_num)
  constructor
  · rw [h.1, round2_of_lt (n := 156000000)]
    · norm_num
    · rw [Int.floor_eq_iff]
      constructor <;> push_cast <;> norm_num
    · push_cast
      norm_num
  · rw [h2.2]
    rw [show (15600:ℚ) / 15600 = 1 by norm_num, round2_of_lt (n := 100)]
    · norm_num
    · rw [Int.floor_eq_iff]
      constructor <;> push_cast <;> norm_num
    · push_cast
      norm_num

/-- C10: on a table whose rates are all strictly positive, `convert` either
fails with the unsupported-currency error or returns a value; when both
uppercased codes are present the looked-up source rate is strictly positive
(so the division is by a nonzero number) and the call returns a value. -/
theorem convert_safe (rates : RateTable) (amount : ℚ) (fc tc : String)
    (hpos : ∀ p ∈ rates, 0 < p.2) :
    (convert rates amount fc tc
        = Except.error ConvertError.unsupportedCurrency ∨
      ∃ v, convert rates amount fc tc = Except.ok v) ∧
    (∀ rFrom rTo, rates.lookup (upper fc) = some rFrom →
      rates.lookup (upper tc) = some rTo →
      0 < rFrom ∧
        convert rates amount fc tc
          = Except.ok (round2 (amount / rFrom * rTo))) := by
  constructor
  · simp only [convert]
    cases hf : rates.lookup (upper fc) <;>
      cases ht : rates.lookup (upper tc) <;> simp [hf, ht]
  · intro rFrom rTo hf ht
    refine ⟨hpos _ (lookup_mem hf), ?_⟩
    simp only [convert]
    rw [hf, ht]

/-- C10 witness: the default table has positive rates, so a conversion with
both codes present returns a value and its source rate is positive. -/
theorem convert_safe_witness :
    0 < (15600:ℚ) ∧
    convert default_rates 7 "IDR" "JPY"
      = Except.ok (round2 (7 / 15600 * (15027/100))) := by
  have h := convert_safe default_rates 7 "IDR" "JPY" (by
    intro p hp
    simp only [default_rates, List.mem_cons, List.not_mem_nil, or_false] at hp
    rcases hp with h | h | h | h | h | h <;> subst h <;> norm_num)
  exact h.2 15600 (15027/100) rfl rfl

/-! ## Claims about initialization, fetching and persistence -/

theorem load_fresh (w : World) (s : ConvState) (rates : RateTable) (t : Int)
    (hc : w.cacheFile = some (CacheFileContents.valid rates t))
    (hdays : (w.now - t).fdiv 86400 < 1) :
    load_or_update_rates w s =
      { state := { s with exchange_rates := rates, last_update := some t }
        cacheFile := w.cacheFile
        fetchInvoked := false } := by
  simp only [load_or_update_rates, hc]
  rw [if_pos hdays]

/-- C3: with a cache file whose timestamp is less than 24 hours old (so the
whole-elapsed-day count is 0), initialization does not invoke the fetch and
adopts exactly the cached table and timestamp. -/
theorem fresh_cache_no_fetch (w : World) (s : ConvState) (rates : RateTable)
    (t : Int) (hc : w.cacheFile = some (CacheFileContents.valid rates t))
    (h0 : 0 ≤ w.now - t) (h1 : w.now - t < 86400) :
    (load_or_update_rates w s).fetchInvoked = false ∧
    (load_or_update_rates w s).state.exchange_rates = rates ∧
    (load_or_update_rates w s).state.last_update = some t := by
  rw [load_fresh w s rates t hc (fdiv_day_eq_zero h0 h1)]
  exact ⟨rfl, rfl, rfl⟩

/-- A world whose cache is 1000 seconds old and whose provider would raise. -/
def wFresh : World :=
  { cacheFile := some (CacheFileContents.valid default_rates 0)
    now := 1000
    fetch := FetchOutcome.requestErrorEarly }

/-- C3 witness: a 1000-second-old cache is adopted without fetching. -/
theorem fresh_cache_no_fetch_witness :
    (load_or_update_rates wFresh initState).fetchInvoked = false ∧
    (load_or_update_rates wFresh initState).state.exchange_rates
      = default_rates ∧
    (load_or_update_rates wFresh initState).state.last_update = some 0 :=
  fresh_cache_no_fetch wFresh initState default_rates 0 rfl (by decide)
    (by decide)

/-- A world with a malformed cache file and a provider that would succeed. -/
def wMal : World :=
  { cacheFile := some CacheFileContents.malformed
    now := 500
    fetch := FetchOutcome.success ["USD"] [("USD", 1)] }

/-- C4 counterexample: with a malformed cache file the fetch collaborator is
not invoked (the parse error jumps to the `except` branch), and the default
table is installed directly — even though the provider would have succeeded. -/
theorem malformed_cache_skips_fetch :
    (load_or_update_rates wMal initState).fetchInvoked = false ∧
    (load_or_update_rates wMal initState).state.exchange_rates
      = default_rates := by
  exact ⟨rfl, rfl⟩

/-- C4 (amended): when the cache file is absent or its timestamp is at least
24 hours old, initialization invokes the fetch; if the fetch fails, it
completes (the embedding is a total function) with exactly the hardcoded
default table and the current time as timestamp.  When the cache file is
malformed, initialization installs the same default table and timestamp but
does not invoke the fetch. -/
theorem absent_or_stale_fetches (w : World) (s : ConvState) :
    ((w.cacheFile = none ∨ ∃ rates t,
        w.cacheFile = some (CacheFileContents.valid rates t)
          ∧ 86400 ≤ w.now - t) →
      (load_or_update_rates w s).fetchInvoked = true ∧
      ((fetch_latest_rates w s).ok = false →
        (load_or_update_rates w s).state.exchange_rates = default_rates ∧
        (load_or_update_rates w s).state.last_update = some w.now)) ∧
    (w.cacheFile = some CacheFileContents.malformed →
      (load_or_update_rates w s).fetchInvoked = false ∧
      (load_or_update_rates w s).state.exchange_rates = default_rates ∧
      (load_or_update_rates w s).state.last_update = some w.now) := by
  constructor
  · intro hcs
    rcases hcs with hc | ⟨rates, t, hc, hstale⟩
    · simp only [load_or_update_rates, hc]
      cases hok : (fetch_latest_rates w s).ok <;>
        simp [hok, use_default_rates]
    · simp only [load_or_update_rates, hc]
      rw [if_neg (one_le_fdiv_day hstale)]
      cases hok : (fetch_latest_rates w s).ok <;>
        simp [hok, use_default_rates]
  · intro hc
    simp [load_or_update_rates, hc, use_default_rates]

/-- A world with no cache file and a provider that would raise. -/
def wAbsent : World :=
  { cacheFile := none, now := 77, fetch := FetchOutcome.requestErrorEarly }

/-- C4 witness: no cache file and a failing fetch yield the default table
stamped with the current time, with the fetch having been invoked. -/
theorem absent_or_stale_fetches_witness :
    (load_or_update_rates wAbsent initState).fetchInvoked = true ∧
    (load_or_update_rates wAbsent initState).state.exchange_rates
      = default_rates ∧
    (load_or_update_rates wAbsent initState).state.last_update = some 77 := by
  have h := (absent_or_stale_fetches wAbsent initState).1 (Or.inl rfl)
  exact ⟨h.1, (h.2 rfl).1, (h.2 rfl).2⟩

/-- C5: `fetch_latest_rates` returns a boolean (it catches request errors
rather than raising); it returns `True`, wholesale-replaces the table and
timestamp, and persists them to the cache file exactly when the provider
reports an explicit success status; whenever it returns `False` — and the
manual refresh action is exactly a call to it — the previously held table,
timestamp, and cache file are unchanged. -/
theorem fetch_latest_contract (w : World) (s : ConvState) :
    ((fetch_latest_rates w s).ok = true ↔
      ∃ codes rates, w.fetch = FetchOutcome.success codes rates) ∧
    (∀ codes rates, w.fetch = FetchOutcome.success codes rates →
      (fetch_latest_rates w s).state.exchange_rates = rates ∧
      (fetch_latest_rates w s).state.last_update = some w.now ∧
      (fetch_latest_rates w s).cacheFile
        = some (CacheFileContents.valid rates w.now)) ∧
    ((fetch_latest_rates w s).ok = false →
      (fetch_latest_rates w s).state.exchange_rates = s.exchange_rates ∧
      (fetch_latest_rates w s).state.last_update = s.last_update ∧
      (fetch_latest_rates w s).cacheFile = w.cacheFile) ∧
    update_from_api w s
      = ((fetch_latest_rates w s).state, (fetch_latest_rates w s).cacheFile) := by
  cases hf : w.fetch <;>
    simp [fetch_latest_rates, hf, update_from_api, save_to_cache]

/-- A state holding the default table, and a world whose provider reports a
non-success status. -/
def s5 : ConvState :=
  { exchange_rates := default_rates, last_update := some 3
    supported_currencies := [] }

def wErr : World :=
  { cacheFile := some CacheFileContents.malformed
    now := 5
    fetch := FetchOutcome.notSuccess ["EUR"] }

/-- C5 witness: on a non-success provider status the call returns `False`
and the table, timestamp and cache file are unchanged. -/
theorem fetch_latest_contract_witness :
    (fetch_latest_rates wErr s5).ok = false ∧
    (fetch_latest_rates wErr s5).state.exchange_rates = default_rates ∧
    (fetch_latest_rates wErr s5).state.last_update = some 3 ∧
    (fetch_latest_rates wErr s5).cacheFile
      = some CacheFileContents.malformed := by
  have h := (fetch_latest_contract wErr s5).2.2.1 rfl
  exact ⟨rfl, h.1, h.2.1, h.2.2⟩

/-- C8: persisting a populated state and then running a fresh initialization
while the persisted timestamp is still less than 24 hours old reproduces the
persisted table exactly. -/
theorem persist_init_roundtrip (s s0 : ConvState) (t : Int) (w : World)
    (hlu : s.last_update = some t)
    (hw : w.cacheFile = save_to_cache s)
    (h0 : 0 ≤ w.now - t) (h1 : w.now - t < 86400) :
    (load_or_update_rates w s0).state.exchange_rates = s.exchange_rates := by
  have hc : w.cacheFile
      = some (CacheFileContents.valid s.exchange_rates t) := by
    rw [hw]
    simp only [save_to_cache, hlu]
  rw [load_fresh w s0 s.exchange_rates t hc (fdiv_day_eq_zero h0 h1)]

/-- A populated state persisted at time 10, reloaded at time 20. -/
def s8 : ConvState :=
  { exchange_rates := default_rates, last_update := some 10
    supported_currencies := ["USD"] }

def w8 : World :=
  { cacheFile := save_to_cache s8, now := 20
    fetch := FetchOutcome.requestErrorEarly }

/-- C8 witness: the persisted default table round-trips through the cache. -/
theorem persist_init_roundtrip_witness :
    (load_or_update_rates w8 initState).state.exchange_rates
      = default_rates :=
  persist_init_roundtrip s8 initState 10 w8 rfl rfl (by decide)
    (by decide)

/-! ## The pivot-rate invariant -/

/-- The data-model invariant on a rate table: the pivot currency's own
entry, if present, equals 1.0. -/
def usdOk (rates : RateTable) : Prop :=
  ∀ r, rates.lookup "USD" = some r → r = 1

/-- The environment contract the spec states for externally supplied
tables: cache records and provider responses are USD-pivoted, so their USD
entry, if present, is 1.0. -/
def World.envOk (w : World) : Prop :=
  (∀ rates t, w.cacheFile = some (CacheFileContents.valid rates t) →
    usdOk rates) ∧
  (∀ codes rates, w.fetch = FetchOutcome.success codes rates → usdOk rates)

/-- States reachable by any sequence of the program's operations —
construction-time initialization, `fetch_latest_rates`, the manual refresh,
`save_to_cache` (which does not touch the object), and `convert` (which
does not touch the object) — each against an environment satisfying the
contract. -/
inductive Reachable : ConvState → Prop
  | init (w : World) (hw : w.envOk) :
      Reachable (load_or_update_rates w initState).state
  | reinit (s : ConvState) (w : World) (hs : Reachable s)
      (hw : w.envOk) : Reachable (load_or_update_rates w s).state
  | fetchLatest (s : ConvState) (w : World) (hs : Reachable s)
      (hw : w.envOk) : Reachable (fetch_latest_rates w s).state
  | refresh (s : ConvState) (w : World) (hs : Reachable s)
      (hw : w.envOk) : Reachable (update_from_api w s).1
  | persist (s : ConvState) (hs : Reachable s) : Reachable s
  | convertStep (s : ConvState) (amount : ℚ) (fc tc : String)
      (hs : Reachable s) : Reachable (convert_op s amount fc tc).2

theorem usdOk_default : usdOk default_rates := by
  intro r h
  have e : default_rates.lookup "USD" = some 1 := rfl
  injection e.symm.trans h with h2
  exact h2.symm

theorem usdOk_fetch (w : World) (s : ConvState) (hw : w.envOk)
    (hs : usdOk s.exchange_rates) :
    usdOk (fetch_latest_rates w s).state.exchange_rates := by
  cases hf : w.fetch with
  | success codes rates =>
    simp only [fetch_latest_rates, hf]
    exact hw.2 codes rates hf
  | notSuccess codes =>
    simp only [fetch_latest_rates, hf]
    exact hs
  | requestErrorEarly =>
    simp only [fetch_latest_rates, hf]
    exact hs
  | requestErrorLate codes =>
    simp only [fetch_latest_rates, hf]
    exact hs

theorem usdOk_load (w : World) (s : ConvState) (hw : w.envOk)
    (hs : usdOk s.exchange_rates) :
    usdOk (load_or_update_rates w s).state.exchange_rates := by
  cases hc : w.cacheFile with
  | none =>
    simp only [load_or_update_rates, hc]
    cases hok : (fetch_latest_rates w s).ok
    · simp only [hok, Bool.false_eq_true, if_false]
      exact usdOk_default
    · simp only [hok, if_true]
      exact usdOk_fetch w s hw hs
  | some c =>
    cases c with
    | malformed =>
      simp only [load_or_update_rates, hc]
      exact usdOk_default
    | valid rates t =>
      simp only [load_or_update_rates, hc]
      by_cases hday : (w.now - t).fdiv 86400 < 1
      · rw [if_pos hday]
        exact hw.1 rates t hc
      · rw [if_neg hday]
        cases hok : (fetch_latest_rates w s).ok
        · simp only [hok, Bool.false_eq_true, if_false]
          exact usdOk_default
        · simp only [hok, if_true]
          exact usdOk_fetch w s hw hs

/-- C9: in every state reachable by any sequence of the operations, against
environments whose externally supplied tables respect the pivot contract,
the USD entry of the current table — if present — equals 1.0. -/
theorem usd_pivot_invariant (s : ConvState) (hs : Reachable s) :
    usdOk s.exchange_rates := by
  induction hs with
  | init w hw =>
    refine usdOk_load w initState hw ?_
    intro r h
    simp [initState] at h
  | reinit s w hs hw ih => exact usdOk_load w s hw ih
  | fetchLatest s w hs hw ih => exact usdOk_fetch w s hw ih
  | refresh s w hs hw ih => exact usdOk_fetch w s hw ih
  | persist s hs ih => exact ih
  | convertStep s amount fc tc hs ih => exact ih

/-- A world with no cache file and a provider that raises. -/
def wNull : World :=
  { cacheFile := none, now := 0, fetch := FetchOutcome.requestErrorEarly }

/-- C9 witness: the state constructed with no cache and a failing provider
is reachable, and its table satisfies the pivot invariant. -/
theorem usd_pivot_invariant_witness :
    usdOk (load_or_update_rates wNull initState).state.exchange_rates :=
  usd_pivot_invariant _ (Reachable.init wNull
    ⟨fun rates t h => absurd h (by simp [wNull]),
     fun codes rates h => absurd h (by simp [wNull])⟩)

end CurrencyConversion
